import Mathlib

/-!
Verification of the encrypted local vault and the CSV interchange layer of
the satto-receipt application.  The definitions below are shallow embeddings
of the TypeScript sources: the entity shapes of `src/lib/types.ts`, the vault
codec of `src/lib/crypto.ts`, the CSV export of `src/lib/csv.ts`, the
CSV import of `src/lib/csvImport.ts`, and the session handlers of `src/App.tsx`.
Platform primitives that are not part of the repository (WebCrypto AES-GCM,
`JSON.stringify`/`JSON.parse`, IndexedDB) are modelled as idealized
deterministic operations; everything written in the repository itself is
translated statement by statement.
-/

namespace SattoReceipt

/-- Line item of a receipt, from `LineItem` in `src/lib/types.ts`.
Numeric fields are whole-yen integers. -/
structure LineItem where
  id : String
  name : String
  category : String
  price : Int
  quantity : Int
deriving DecidableEq, Repr

/-- Category definition, from `Category` in `src/lib/types.ts`. -/
structure Category where
  id : String
  name : String
  color : String
deriving DecidableEq, Repr

/-- One purchase event, from `Receipt` in `src/lib/types.ts`.  Optional
(`?`) fields are `Option`s; an `undefined` field is `none`. -/
structure Receipt where
  id : String
  storeName : String
  visitedAt : String
  total : Int
  category : Option String
  tax : Option Int
  note : Option String
  imageData : Option String
  lineItems : List LineItem
  createdAt : String
  updatedAt : String
deriving DecidableEq, Repr

/-- The root document, from `Vault` in `src/lib/types.ts`. -/
structure Vault where
  receipts : List Receipt
  categories : List Category
deriving DecidableEq, Repr

/-! ### JSON model

`encryptVault` serializes the vault with `JSON.stringify` before encrypting
and `decryptVault` applies `JSON.parse` after decrypting.  Those two are
platform primitives, not repository code; they are modelled as an injective
map into the JSON value tree below together with the structural reading of a
parsed JSON value back into the `Vault` shape.  As `JSON.stringify` does,
optional fields that are `undefined` are omitted from the object. -/

inductive Json where
  | null
  | str (s : String)
  | num (n : Int)
  | arr (elems : List Json)
  | obj (fields : List (String × Json))

/-- An optional string field: `JSON.stringify` omits `undefined` members. -/
def optStrField (k : String) : Option String → List (String × Json)
  | some s => [(k, .str s)]
  | none => []

/-- An optional numeric field: `JSON.stringify` omits `undefined` members. -/
def optNumField (k : String) : Option Int → List (String × Json)
  | some n => [(k, .num n)]
  | none => []

def lineItemToJson (li : LineItem) : Json :=
  .obj [("id", .str li.id), ("name", .str li.name), ("category", .str li.category),
        ("price", .num li.price), ("quantity", .num li.quantity)]

def categoryToJson (c : Category) : Json :=
  .obj [("id", .str c.id), ("name", .str c.name), ("color", .str c.color)]

def receiptToJson (r : Receipt) : Json :=
  .obj ([("id", .str r.id), ("storeName", .str r.storeName),
         ("visitedAt", .str r.visitedAt), ("total", .num r.total)]
    ++ optStrField "category" r.category
    ++ optNumField "tax" r.tax
    ++ optStrField "note" r.note
    ++ optStrField "imageData" r.imageData
    ++ [("lineItems", .arr (r.lineItems.map lineItemToJson)),
        ("createdAt", .str r.createdAt), ("updatedAt", .str r.updatedAt)])

def vaultToJson (v : Vault) : Json :=
  .obj [("receipts", .arr (v.receipts.map receiptToJson)),
        ("categories", .arr (v.categories.map categoryToJson))]

/-! Structural readers for a parsed JSON value. -/

def asStr : Json → Option String
  | .str s => some s
  | _ => none

def asNum : Json → Option Int
  | .num n => some n
  | _ => none

def asArr : Json → Option (List Json)
  | .arr xs => some xs
  | _ => none

def asObj : Json → Option (List (String × Json))
  | .obj fs => some fs
  | _ => none

/-- First-match field lookup in a JSON object. -/
def jLookup (k : String) : List (String × Json) → Option Json
  | [] => none
  | (k', v) :: rest => if k = k' then some v else jLookup k rest

/-- Read every element of a JSON array, failing if any element fails. -/
def optionMapM (f : α → Option β) : List α → Option (List β)
  | [] => some []
  | x :: xs => do
      let y ← f x
      let ys ← optionMapM f xs
      some (y :: ys)

def getStr (fs : List (String × Json)) (k : String) : Option String :=
  jLookup k fs >>= asStr

def getNum (fs : List (String × Json)) (k : String) : Option Int :=
  jLookup k fs >>= asNum

def getArr (fs : List (String × Json)) (k : String) : Option (List Json) :=
  jLookup k fs >>= asArr

/-- An absent optional field reads as `none`; a present one must be a string. -/
def getOptStr (fs : List (String × Json)) (k : String) : Option (Option String) :=
  match jLookup k fs with
  | none => some none
  | some j => (asStr j).map some

/-- An absent optional field reads as `none`; a present one must be a number. -/
def getOptNum (fs : List (String × Json)) (k : String) : Option (Option Int) :=
  match jLookup k fs with
  | none => some none
  | some j => (asNum j).map some

def lineItemFromJson (j : Json) : Option LineItem := do
  let fs ← asObj j
  let id ← getStr fs "id"
  let name ← getStr fs "name"
  let category ← getStr fs "category"
  let price ← getNum fs "price"
  let quantity ← getNum fs "quantity"
  some ⟨id, name, category, price, quantity⟩

def categoryFromJson (j : Json) : Option Category := do
  let fs ← asObj j
  let id ← getStr fs "id"
  let name ← getStr fs "name"
  let color ← getStr fs "color"
  some ⟨id, name, color⟩

def receiptFromJson (j : Json) : Option Receipt := do
  let fs ← asObj j
  let id ← getStr fs "id"
  let storeName ← getStr fs "storeName"
  let visitedAt ← getStr fs "visitedAt"
  let total ← getNum fs "total"
  let category ← getOptStr fs "category"
  let tax ← getOptNum fs "tax"
  let note ← getOptStr fs "note"
  let imageData ← getOptStr fs "imageData"
  let lineItemsJson ← getArr fs "lineItems"
  let lineItems ← optionMapM lineItemFromJson lineItemsJson
  let createdAt ← getStr fs "createdAt"
  let updatedAt ← getStr fs "updatedAt"
  some ⟨id, storeName, visitedAt, total, category, tax, note, imageData,
        lineItems, createdAt, updatedAt⟩

def vaultFromJson (j : Json) : Option Vault := do
  let fs ← asObj j
  let receiptsJson ← getArr fs "receipts"
  let receipts ← optionMapM receiptFromJson receiptsJson
  let categoriesJson ← getArr fs "categories"
  let categories ← optionMapM categoryFromJson categoriesJson
  some ⟨receipts, categories⟩

/-! ### Vault codec (`src/lib/crypto.ts`)

`deriveKey` applies PBKDF2 (SHA-256, 200000 iterations) to the passphrase
and salt; PBKDF2 is deterministic and modelled as injective, so the derived
key is represented by the (passphrase, salt) pair.  AES-GCM itself is a
WebCrypto primitive, modelled as ideal authenticated encryption: the
ciphertext symbolically carries the plaintext, the encrypting key and the
nonce, and decryption recovers the plaintext exactly when the key matches
and fails authentication otherwise. -/

structure CryptoKey where
  passphrase : String
  salt : Nat
deriving DecidableEq, Repr

def deriveKey (passphrase : String) (salt : Nat) : CryptoKey :=
  ⟨passphrase, salt⟩

inductive CryptoError where
  | authenticationError
deriving DecidableEq, Repr

/-- The `{ciphertext, iv}` pair produced by `encryptVault`. -/
structure EncryptedVault where
  payload : Json
  keyTag : CryptoKey
  iv : Nat

/-- `encryptVault(vault, key)` from `src/lib/crypto.ts`: serialize the vault
(`JSON.stringify`, modelled by `vaultToJson`), draw a fresh 12-byte nonce
(passed in as `iv`), and encrypt with AES-GCM under `key`. -/
def encryptVault (vault : Vault) (key : CryptoKey) (iv : Nat) : EncryptedVault :=
  ⟨vaultToJson vault, key, iv⟩

/-- `decryptVault({ciphertext, iv, key})` from `src/lib/crypto.ts`: AES-GCM
decryption authenticates the ciphertext against the key and rejects on
mismatch; on success the plaintext is `JSON.parse`d and read back as a
`Vault` (the `none` branch of `vaultFromJson` is unreachable for ciphertexts
produced by `encryptVault`). -/
def decryptVault (e : EncryptedVault) (key : CryptoKey) : Except CryptoError Vault :=
  if e.keyTag = key then
    match vaultFromJson e.payload with
    | some v => .ok v
    | none => .error .authenticationError
  else .error .authenticationError

/-! ### Codec round-trip lemmas -/

theorem lineItem_roundtrip (li : LineItem) :
    lineItemFromJson (lineItemToJson li) = some li := by
  cases li
  rfl

theorem category_roundtrip (c : Category) :
    categoryFromJson (categoryToJson c) = some c := by
  cases c
  rfl

theorem mapM_lineItem (l : List LineItem) :
    optionMapM lineItemFromJson (l.map lineItemToJson) = some l := by
  induction l with
  | nil => rfl
  | cons x xs ih =>
      simp [optionMapM, lineItem_roundtrip, ih]

theorem mapM_category (l : List Category) :
    optionMapM categoryFromJson (l.map categoryToJson) = some l := by
  induction l with
  | nil => rfl
  | cons x xs ih =>
      simp [optionMapM, category_roundtrip, ih]

theorem receipt_roundtrip (r : Receipt) :
    receiptFromJson (receiptToJson r) = some r := by
  obtain ⟨id, storeName, visitedAt, total, category, tax, note, imageData,
          lineItems, createdAt, updatedAt⟩ := r
  cases category <;> cases tax <;> cases note <;> cases imageData <;>
    simp [receiptToJson, receiptFromJson, optStrField, optNumField,
          getStr, getNum, getArr, getOptStr, getOptNum, jLookup,
          asObj, asArr, asStr, asNum, mapM_lineItem, Option.bind]

theorem mapM_receipt (l : List Receipt) :
    optionMapM receiptFromJson (l.map receiptToJson) = some l := by
  induction l with
  | nil => rfl
  | cons x xs ih =>
      simp [optionMapM, receipt_roundtrip, ih]

theorem vault_roundtrip (v : Vault) :
    vaultFromJson (vaultToJson v) = some v := by
  obtain ⟨receipts, categories⟩ := v
  simp [vaultToJson, vaultFromJson, getArr, jLookup, asObj, asArr,
        mapM_receipt, mapM_category, Option.bind]

theorem decryptVault_encryptVault (v : Vault) (k : CryptoKey) (iv : Nat) :
    decryptVault (encryptVault v k iv) k = .ok v := by
  simp [decryptVault, encryptVault, vault_roundtrip]

/-- C1: for every vault V and AES-GCM key K, decrypting the output of
`encryptVault(V, K)` with the same key K returns a vault equal to V. -/
theorem decrypt_encrypt_same_key (v : Vault) (k : CryptoKey) (iv : Nat) :
    decryptVault (encryptVault v k iv) k = .ok v :=
  decryptVault_encryptVault v k iv

/-- C2: for every vault V and distinct keys K1 and K2, decrypting
`encryptVault(V, K1)` with K2 always fails with an `AuthenticationError`
and never returns a vault value. -/
theorem decrypt_encrypt_wrong_key (v : Vault) (k1 k2 : CryptoKey) (iv : Nat)
    (h : k1 ≠ k2) :
    decryptVault (encryptVault v k1 iv) k2 = .error .authenticationError := by
  simp [decryptVault, encryptVault, h]

/-- Witness for C2 at concrete distinct keys. -/
theorem decrypt_encrypt_wrong_key_witness :
    decryptVault (encryptVault ⟨[], []⟩ (deriveKey "pass-a" 0) 7)
        (deriveKey "pass-b" 0) = .error .authenticationError :=
  decrypt_encrypt_wrong_key ⟨[], []⟩ (deriveKey "pass-a" 0) (deriveKey "pass-b" 0) 7
    (by decide)

/-! ### String helpers

The CSV code uses the JavaScript string primitives `split`, `trim`,
`toLowerCase`, `includes` and `join`.  They are modelled on `List Char`
(one entry per code point, which is how JavaScript's iteration-relevant
behaviour works for the characters involved here). -/

/-- `text.split(sep)` for a one-character separator: the list of maximal
separator-free chunks, including empty ones. -/
def splitOnChar (sep : Char) : List Char → List (List Char)
  | [] => [[]]
  | c :: rest =>
    match splitOnChar sep rest with
    | [] => [[]]
    | cur :: done => if c = sep then [] :: cur :: done else (c :: cur) :: done

/-- `text.trim()`: strip whitespace from both ends. -/
def trimChars (l : List Char) : List Char :=
  ((l.dropWhile Char.isWhitespace).reverse.dropWhile Char.isWhitespace).reverse

/-- `haystack.includes(needle)`: substring test. -/
def containsSub (pat l : List Char) : Bool :=
  l.tails.any (fun t => pat.isPrefixOf t)

/-- `list.join(sep)` for a one-character separator. -/
def joinChar (sep : Char) : List (List Char) → List Char
  | [] => []
  | [x] => x
  | x :: xs => x ++ sep :: joinChar sep xs

/-! ### JavaScript numeric coercion

`Number(s) || fallback` appears in the receipt save handler and the
CSV importer.  It is modelled on the integer fragment actually produced by the
application (optionally signed decimal integer literals, possibly padded
with whitespace): the empty/blank string coerces to 0, a signed integer
literal to its value, anything else to NaN; `|| fallback` then replaces 0
and NaN by the fallback. -/

/-- The value of a digit string (the truncated subtraction is only ever
reached on digit characters, where it agrees with the exact one). -/
def digitsVal (ds : List Char) : Int :=
  (ds.foldl (fun acc c => acc * 10 + (c.toNat - '0'.toNat)) 0 : Nat)

/-- The trimmed-character-level case analysis of `Number`. -/
def jsNumberCore : List Char → Option Int
  | [] => some 0
  | c :: ds =>
    if c = '-' then
      if ds ≠ [] ∧ ds.all Char.isDigit then some (-(digitsVal ds)) else none
    else if c = '+' then
      if ds ≠ [] ∧ ds.all Char.isDigit then some (digitsVal ds) else none
    else if (c :: ds).all Char.isDigit then some (digitsVal (c :: ds)) else none

/-- `Number(s)` on the integer fragment: `some n` for numeric strings,
`none` for NaN. -/
def jsNumber (s : String) : Option Int :=
  jsNumberCore (trimChars s.data)

/-- `x || fallback` applied to the result of `Number`: 0 and NaN are falsy. -/
def jsOrElse (x : Option Int) (fallback : Int) : Int :=
  match x with
  | some n => if n = 0 then fallback else n
  | none => fallback

/-- `Number(s) || 0`. -/
def jsNumberOr0 (s : String) : Int := jsOrElse (jsNumber s) 0

/-- `Number(s) || 1`. -/
def jsNumberOr1 (s : String) : Int := jsOrElse (jsNumber s) 1

/-! ### CSV export (`src/lib/csv.ts`) -/

/-- Double every double-quote character (`str.replace(/"/g, '""')`). -/
def doubleQuotes : List Char → List Char
  | [] => []
  | c :: rest => if c = '"' then '"' :: '"' :: doubleQuotes rest else c :: doubleQuotes rest

/-- The quoting condition of `escapeCell`: the cell contains a quote, a
comma or a newline. -/
def needsQuote (l : List Char) : Bool :=
  l.contains '"' || l.contains ',' || l.contains '\n'

/-- `escapeCell` on the character list of a cell. -/
def escapeChars (l : List Char) : List Char :=
  if needsQuote l then '"' :: (doubleQuotes l ++ ['"']) else l

/-- `escapeCell(value)` from `src/lib/csv.ts` (the `String(value)`
conversion of numeric cells is applied by the caller below). -/
def escapeCell (s : String) : String := ⟨escapeChars s.data⟩

/-- The fixed header row of `toCsv`. -/
def csvHeader : List String :=
  ["date", "store", "store_category", "item_name", "item_category",
   "quantity", "unit_price", "subtotal", "receipt_total", "note"]

/-- The data rows contributed by one receipt in `toCsv`: one row per line
item, or a single row with blank item fields when there are none.  Numeric
cells are stringified as `String(value)` would. -/
def receiptRows (receipt : Receipt) : List (List String) :=
  if receipt.lineItems.isEmpty then
    [[receipt.visitedAt, receipt.storeName, receipt.category.getD "",
      "", "", "", "", "", toString receipt.total, receipt.note.getD ""]]
  else
    receipt.lineItems.map fun line =>
      [receipt.visitedAt, receipt.storeName, receipt.category.getD "",
       line.name, line.category, toString line.quantity, toString line.price,
       toString (line.price * line.quantity), toString receipt.total,
       receipt.note.getD ""]

/-- Render one row: `row.map(escapeCell).join(',')`. -/
def renderRow (row : List String) : List Char :=
  joinChar ',' (row.map (fun s => escapeChars s.data))

/-- `toCsv(receipts)` from `src/lib/csv.ts`:
`[header, ...rows].map(row => row.map(escapeCell).join(',')).join('\n')`. -/
def toCsv (receipts : List Receipt) : String :=
  ⟨joinChar '\n' ((csvHeader :: receipts.flatMap receiptRows).map renderRow)⟩

/-! ### CSV import (`src/lib/csvImport.ts`) -/

/-- The character loop of `parseCsvLine`: `cur` is the cell being built,
`q` the `inQuotes` flag, `acc` the cells already emitted.  A `""` pair
appends a literal quote (checked before anything else, exactly as in the
source), a lone quote toggles `q`, an unquoted comma ends the cell, and
every other character is appended. -/
def parseCsvLineAux : List Char → List Char → Bool → List (List Char) → List (List Char)
  | [], cur, _, acc => acc ++ [cur]
  | c :: rest, cur, q, acc =>
    if c = '"' then
      match rest with
      | c2 :: rest2 =>
        if c2 = '"' then parseCsvLineAux rest2 (cur ++ ['"']) q acc
        else parseCsvLineAux (c2 :: rest2) cur (!q) acc
      | [] => parseCsvLineAux [] cur (!q) acc
    else if c = ',' ∧ q = false then parseCsvLineAux rest [] q (acc ++ [cur])
    else parseCsvLineAux rest (cur ++ [c]) q acc

/-- `parseCsvLine(line)` from `src/lib/csvImport.ts`. -/
def parseCsvLine (line : String) : List String :=
  (parseCsvLineAux line.data [] false []).map fun l => (⟨l⟩ : String)

/-- The trimmed non-blank lines of the input:
`csv.split("\n").map(l => l.trim()).filter(Boolean)`. -/
def splitLines (csv : String) : List String :=
  (((splitOnChar '\n' csv.data).map trimChars).filter
    (fun l => !l.isEmpty)).map fun l => (⟨l⟩ : String)

/-- The intermediate `Row` shape of the importer. -/
structure CsvRow where
  date : String
  store : String
  total : Int
  note : Option String
deriving DecidableEq, Repr

/-- One data line parsed into a `Row`:
`date = cols[0] ?? ""`, `store = cols[1] ?? ""`,
`total = Number(cols[6] ?? cols[2] ?? 0) || 0`, `note = cols[7] || undefined`. -/
def rowOfLine (line : String) : CsvRow :=
  let cols := parseCsvLine line
  let date := cols.getD 0 ""
  let store := cols.getD 1 ""
  let totalField := match cols.get? 6 with
    | some s => some s
    | none => cols.get? 2
  let total := match totalField with
    | some s => jsNumberOr0 s
    | none => 0
  let note := match cols.get? 7 with
    | some s => if s = "" then none else some s
    | none => none
  ⟨date, store, total, note⟩

/-- The header-row heuristic: the lowercased first line contains `"store"`. -/
def headerHasStore (line : String) : Bool :=
  containsSub "store".data (line.data.map Char.toLower)

/-- The data lines of the import: drop the first line when it looks like a
header. -/
def importDataLines (csv : String) : List String :=
  match splitLines csv with
  | [] => []
  | first :: rest => if headerHasStore first then rest else first :: rest

/-- The parsed data rows of the import. -/
def importRows (csv : String) : List CsvRow :=
  (importDataLines csv).map rowOfLine

/-- The composite deduplication key used by the importer. -/
def rowKey (r : CsvRow) : String :=
  r.date ++ "||" ++ r.store ++ "||" ++ toString r.total ++ "||" ++ r.note.getD ""

/-- Keep the first row for each key, in insertion order: the `Map`-based
`if (!map.has(key)) map.set(key, row)` loop followed by
`Array.from(map.values())`. -/
def dedupByKey (rows : List CsvRow) : List CsvRow :=
  rows.foldl (fun acc r => if acc.any (fun x => rowKey x == rowKey r) then acc else acc ++ [r]) []

/-- The receipt built for one deduplicated row: fresh id and timestamps,
fallback store name and date, no category, no line items. -/
def mkImportedReceipt (uuid now : String) (row : CsvRow) : Receipt :=
  ⟨uuid,
   if row.store = "" then "インポート" else row.store,
   if row.date = "" then now.take 10 else row.date,
   row.total, none, none, row.note, none, [], now, now⟩

/-- Build the result list; `crypto.randomUUID()` and
`new Date().toISOString()` are drawn once per produced receipt and are
modelled as functions of the receipt's position. -/
def buildImported (uuid nowAt : Nat → String) : Nat → List CsvRow → List Receipt
  | _, [] => []
  | i, row :: rest => mkImportedReceipt (uuid i) (nowAt i) row :: buildImported uuid nowAt (i + 1) rest

/-- `importCsvToReceipts(csv)` from `src/lib/csvImport.ts`. -/
def importCsvToReceipts (uuid nowAt : Nat → String) (csv : String) : List Receipt :=
  buildImported uuid nowAt 0 (dedupByKey (importRows csv))

/-! ### Session manager (`src/App.tsx`)

The React component state relevant to the vault is the in-memory session,
the persisted singleton record (IndexedDB, `src/lib/db.ts`) and the
persisted salt (localStorage).  Handlers are modelled as state
transformers; the possibility that `saveVault` rejects is injected through
a `saveOk` flag, and a rejected step aborts the rest of the handler exactly
as a thrown exception would. -/

/-- The transient in-memory session of `App.tsx`. -/
structure Session where
  key : CryptoKey
  vault : Vault

/-- The persisted singleton record (`VaultRecord` in `src/lib/types.ts`). -/
structure VaultRecord where
  id : String
  version : Int
  payload : EncryptedVault

/-- The state visible to the vault subsystem. -/
structure AppState where
  store : Option VaultRecord
  salt : Option Nat
  session : Option Session

inductive StorageError where
  | saveFailed
deriving DecidableEq, Repr

/-- The two session-relevant effects a handler performs, in program order. -/
inductive Eff where
  | save (record : VaultRecord)
  | setSession (s : Option Session)

/-- Run a handler's effect list.  A failing `saveVault` leaves the store
untouched and aborts the remaining effects (the rejected promise
propagates), returning the state reached so far. -/
def runProg (saveOk : Bool) : AppState → List Eff → AppState × Option StorageError
  | st, [] => (st, none)
  | st, .save r :: rest =>
      if saveOk then runProg saveOk { st with store := some r } rest
      else (st, some .saveFailed)
  | st, .setSession s :: rest => runProg saveOk { st with session := s } rest

/-- `persistVault(nextVault, key)` from `App.tsx`: encrypt, then
`saveVault({id: "data", version: 1, ...encrypted})`, then
`setSession({key, vault: nextVault})` — in that order. -/
def persistVaultProg (nextVault : Vault) (key : CryptoKey) (iv : Nat) : List Eff :=
  [.save ⟨"data", 1, encryptVault nextVault key iv⟩,
   .setSession (some ⟨key, nextVault⟩)]

/-- Draft of one line item as held in the form state. -/
structure LineItemDraft where
  id : String
  name : String
  category : String
  price : String
  quantity : String

/-- Draft of a receipt as held in the form state. -/
structure ReceiptDraft where
  storeName : String
  visitedAt : String
  total : String
  note : String
  category : String
  imageData : Option String
  lineItems : List LineItemDraft

/-- The receipt literal built inside `handleSaveReceipt`:
`total = Number(draft.total) || 0`, line items with
`price = Number(item.price) || 0` and `quantity = Number(item.quantity) || 1`,
fallback store name and date, and the image only when opted in. -/
def mkReceiptFromDraft (draft : ReceiptDraft) (uuid now : String)
    (saveImage : Bool) : Receipt :=
  let lineItems : List LineItem := draft.lineItems.map fun item =>
    ⟨item.id, item.name, item.category, jsNumberOr0 item.price, jsNumberOr1 item.quantity⟩
  ⟨uuid,
   if draft.storeName = "" then "無題のレシート" else draft.storeName,
   if draft.visitedAt = "" then now.take 10 else draft.visitedAt,
   jsNumberOr0 draft.total,
   some draft.category,
   none,
   if draft.note = "" then none else some draft.note,
   if saveImage then draft.imageData else none,
   lineItems, now, now⟩

/-- `handleSaveReceipt` from `App.tsx`: prepend the drafted receipt and
persist (the trailing draft/OCR resets touch only presentation state). -/
def handleSaveReceipt (st : AppState) (saveOk : Bool) (draft : ReceiptDraft)
    (uuid now : String) (saveImage : Bool) (iv : Nat) :
    AppState × Option StorageError :=
  match st.session with
  | none => (st, none)
  | some s =>
      let receipt := mkReceiptFromDraft draft uuid now saveImage
      let nextVault : Vault := ⟨receipt :: s.vault.receipts, s.vault.categories⟩
      runProg saveOk st (persistVaultProg nextVault s.key iv)

/-- `handleDeleteReceipt` from `App.tsx`. -/
def handleDeleteReceipt (st : AppState) (saveOk : Bool) (rid : String)
    (iv : Nat) : AppState × Option StorageError :=
  match st.session with
  | none => (st, none)
  | some s =>
      let nextVault : Vault :=
        ⟨s.vault.receipts.filter (fun r => r.id != rid), s.vault.categories⟩
      runProg saveOk st (persistVaultProg nextVault s.key iv)

/-- `handleImportCsv` from `App.tsx`: parse the file text, then prepend
the imported receipts to the existing list by plain concatenation. -/
def handleImportCsv (st : AppState) (saveOk : Bool) (uuid nowAt : Nat → String)
    (text : String) (iv : Nat) : AppState × Option StorageError :=
  let receipts := importCsvToReceipts uuid nowAt text
  match st.session with
  | none => (st, none)
  | some s =>
      let nextVault : Vault := ⟨receipts ++ s.vault.receipts, s.vault.categories⟩
      runProg saveOk st (persistVaultProg nextVault s.key iv)

/-- `handleCleanupImages` from `App.tsx`: drop every embedded image. -/
def handleCleanupImages (st : AppState) (saveOk : Bool) (iv : Nat) :
    AppState × Option StorageError :=
  match st.session with
  | none => (st, none)
  | some s =>
      let cleaned := s.vault.receipts.map fun r => { r with imageData := none }
      runProg saveOk st (persistVaultProg ⟨cleaned, s.vault.categories⟩ s.key iv)

/-- The default categories of `App.tsx`. -/
def defaultCategories : List Category :=
  [⟨"supermarket", "スーパー", "#3de0a2"⟩,
   ⟨"convenience", "コンビニ", "#f59e0b"⟩,
   ⟨"drugstore", "ドラッグストア", "#a78bfa"⟩,
   ⟨"restaurant", "飲食店", "#ef4444"⟩,
   ⟨"clothing", "衣料品店", "#ec4899"⟩,
   ⟨"electronics", "家電・雑貨", "#38bdf8"⟩,
   ⟨"medical", "医療・薬局", "#14b8a6"⟩,
   ⟨"entertainment", "娯楽", "#8b5cf6"⟩,
   ⟨"other", "その他", "#94a3b8"⟩]

/-- `createVault()` from `App.tsx`. -/
def createVault : Vault := ⟨[], defaultCategories⟩

/-- `getOrCreateSalt()` from `src/lib/crypto.ts`: reuse the persisted salt
or persist a freshly drawn one. -/
def getOrCreateSalt (st : AppState) (freshSalt : Nat) : Nat × AppState :=
  match st.salt with
  | some s => (s, st)
  | none => (freshSalt, { st with salt := some freshSalt })

/-- The message shown when unlock fails. -/
def unlockErrorMsg : String := "パスフレーズが違うかデータを復号できませんでした。"

/-- `handleUnlock(passphrase)` from `App.tsx`: create-or-load the salt,
derive the key, load the record; on first run persist a fresh empty vault,
otherwise decrypt; any thrown error is caught and reported as the unlock
error message. -/
def handleUnlock (st : AppState) (passphrase : String) (freshSalt iv : Nat)
    (saveOk : Bool) : AppState × Option String :=
  let saltSt := getOrCreateSalt st freshSalt
  let key := deriveKey passphrase saltSt.1
  let st1 := saltSt.2
  match st1.store with
  | none =>
      match runProg saveOk st1 (persistVaultProg createVault key iv) with
      | (st2, none) => (st2, none)
      | (st2, some _) => (st2, some unlockErrorMsg)
  | some stored =>
      match decryptVault stored.payload key with
      | .ok vault => ({ st1 with session := some ⟨key, vault⟩ }, none)
      | .error _ => (st1, some unlockErrorMsg)

/-- C3: mutation is atomic with respect to storage failure — when the
`saveVault` step of `persistVault` rejects, every mutation (save receipt,
delete receipt, CSV import, image cleanup) leaves the in-memory session
exactly as it was: still the same key and vault V, with no partial update. -/
theorem mutation_atomicity (st : AppState) (k : CryptoKey) (V : Vault)
    (draft : ReceiptDraft) (uuid now : String) (saveImage : Bool)
    (rid : String) (uuidAt nowAt : Nat → String) (text : String) (iv : Nat)
    (h : st.session = some ⟨k, V⟩) :
    (handleSaveReceipt st false draft uuid now saveImage iv).1.session = some ⟨k, V⟩ ∧
    (handleDeleteReceipt st false rid iv).1.session = some ⟨k, V⟩ ∧
    (handleImportCsv st false uuidAt nowAt text iv).1.session = some ⟨k, V⟩ ∧
    (handleCleanupImages st false iv).1.session = some ⟨k, V⟩ := by
  simp [handleSaveReceipt, handleDeleteReceipt, handleImportCsv,
        handleCleanupImages, h, runProg, persistVaultProg]

/-- Witness for C3 at a concrete unlocked state. -/
theorem mutation_atomicity_witness :
    (handleSaveReceipt ⟨none, some 0, some ⟨deriveKey "p" 0, ⟨[], []⟩⟩⟩ false
        ⟨"", "", "", "", "", none, []⟩ "u" "t" false 3).1.session =
      some ⟨deriveKey "p" 0, ⟨[], []⟩⟩ ∧
    (handleDeleteReceipt ⟨none, some 0, some ⟨deriveKey "p" 0, ⟨[], []⟩⟩⟩ false
        "r1" 3).1.session = some ⟨deriveKey "p" 0, ⟨[], []⟩⟩ ∧
    (handleImportCsv ⟨none, some 0, some ⟨deriveKey "p" 0, ⟨[], []⟩⟩⟩ false
        (fun _ => "u") (fun _ => "t") "a,b" 3).1.session =
      some ⟨deriveKey "p" 0, ⟨[], []⟩⟩ ∧
    (handleCleanupImages ⟨none, some 0, some ⟨deriveKey "p" 0, ⟨[], []⟩⟩⟩ false
        3).1.session = some ⟨deriveKey "p" 0, ⟨[], []⟩⟩ :=
  mutation_atomicity ⟨none, some 0, some ⟨deriveKey "p" 0, ⟨[], []⟩⟩⟩
    (deriveKey "p" 0) ⟨[], []⟩ ⟨"", "", "", "", "", none, []⟩ "u" "t" false
    "r1" (fun _ => "u") (fun _ => "t") "a,b" 3 rfl

/-- C4: first-unlock bootstrap — when no record is persisted, `unlock(p)`
builds a vault with no receipts and the default categories, persists it
encrypted under the key derived from p and the persisted (or freshly
created) salt as the singleton record, and enters the Unlocked state with
that vault; the persisted record decrypts under the same passphrase, so a
subsequent unlock with p yields the same vault. -/
theorem first_unlock_bootstrap (st : AppState) (p : String)
    (freshSalt iv fs2 iv2 : Nat) (h : st.store = none) :
    (handleUnlock st p freshSalt iv true).2 = none ∧
    (handleUnlock st p freshSalt iv true).1.session =
      some ⟨deriveKey p (st.salt.getD freshSalt), createVault⟩ ∧
    createVault.receipts = [] ∧
    createVault.categories = defaultCategories ∧
    (∃ rec, (handleUnlock st p freshSalt iv true).1.store = some rec ∧
      rec.id = "data" ∧ rec.version = 1 ∧
      decryptVault rec.payload (deriveKey p (st.salt.getD freshSalt)) =
        .ok createVault) ∧
    (handleUnlock (handleUnlock st p freshSalt iv true).1 p fs2 iv2 true).1.session =
      some ⟨deriveKey p (st.salt.getD freshSalt), createVault⟩ := by
  cases hs : st.salt <;>
    simp [handleUnlock, getOrCreateSalt, h, hs, runProg, persistVaultProg,
          decryptVault_encryptVault, createVault]

/-- Witness for C4 at a concrete locked first-run state. -/
theorem first_unlock_bootstrap_witness :
    (handleUnlock ⟨none, none, none⟩ "correct-horse" 5 9 true).2 = none ∧
    (handleUnlock ⟨none, none, none⟩ "correct-horse" 5 9 true).1.session =
      some ⟨deriveKey "correct-horse" ((none : Option Nat).getD 5), createVault⟩ ∧
    createVault.receipts = [] ∧
    createVault.categories = defaultCategories ∧
    (∃ rec, (handleUnlock ⟨none, none, none⟩ "correct-horse" 5 9 true).1.store = some rec ∧
      rec.id = "data" ∧ rec.version = 1 ∧
      decryptVault rec.payload (deriveKey "correct-horse" ((none : Option Nat).getD 5)) =
        .ok createVault) ∧
    (handleUnlock (handleUnlock ⟨none, none, none⟩ "correct-horse" 5 9 true).1
        "correct-horse" 7 11 true).1.session =
      some ⟨deriveKey "correct-horse" ((none : Option Nat).getD 5), createVault⟩ :=
  first_unlock_bootstrap ⟨none, none, none⟩ "correct-horse" 5 9 7 11 rfl

/-- C5: the lossy CSV round-trip promised by the spec fails in the code.
`toCsv` emits ten columns with the receipt total in column 8, but
`importCsvToReceipts` reads the total from column 6 (its own comment still
documents the older eight-column export `date, store, item, category,
quantity, price, receipt_total, note`).  For a receipt with no line items
column 6 is blank, so the imported total is 0: exporting a receipt with
total 980 and re-importing yields the tuple `(date, store, 0)` instead of
`(date, store, 980)`. -/
theorem csv_roundtrip_total_dropped :
    ((importCsvToReceipts (fun i => "u" ++ toString i)
        (fun _ => "2024-06-01T00:00:00.000Z")
        (toCsv [⟨"r1", "SuperMart", "2024-05-01", 980, none, none, none, none,
                 [], "t0", "t0"⟩])).map
      (fun r => (r.visitedAt, r.storeName, r.total))) =
      [("2024-05-01", "SuperMart", (0 : Int))] ∧
    (980 : Int) ≠ 0 := by
  exact ⟨by decide, by decide⟩

/-! ### Specification-side CSV export (for claim C6)

The following definitions transcribe the spec's description of `toCsv`
(fixed header order; one row per line item with the receipt fields
repeated; a single row with blank item fields for a receipt without line
items; RFC-4180-style quoting) so that the code-side `toCsv` can be proved
equal to them. -/

/-- Modelled from the spec: `list.join(sep)` written at the string level. -/
def specJoin (sep : String) : List String → String
  | [] => ""
  | [x] => x
  | x :: xs => x ++ sep ++ specJoin sep xs

/-- Modelled from the spec: a cell containing a delimiter, quote or newline
is wrapped in double quotes with internal quotes doubled. -/
def specEscape (s : String) : String :=
  if ',' ∈ s.data ∨ '"' ∈ s.data ∨ '\n' ∈ s.data then
    ⟨'"' :: ((s.data.flatMap fun c => if c = '"' then ['"', '"'] else [c]) ++ ['"'])⟩
  else s

/-- Modelled from the spec: the documented fixed column order. -/
def specHeader : List String :=
  ["date", "store", "store_category", "item_name", "item_category",
   "quantity", "unit_price", "subtotal", "receipt_total", "note"]

/-- Modelled from the spec: one row, with the receipt-level fields always
present and the five item fields either taken from a line item or blank. -/
def specRow (r : Receipt) (item : Option LineItem) : List String :=
  [r.visitedAt, r.storeName, r.category.getD ""] ++
  (match item with
   | some line =>
       [line.name, line.category, toString line.quantity, toString line.price,
        toString (line.price * line.quantity)]
   | none => ["", "", "", "", ""]) ++
  [toString r.total, r.note.getD ""]

/-- Modelled from the spec: one row per line item, or exactly one row with
blank item fields when the receipt has none. -/
def specRowsOf (r : Receipt) : List (List String) :=
  match r.lineItems with
  | [] => [specRow r none]
  | items => items.map fun li => specRow r (some li)

/-- Modelled from the spec: the whole export — header row first, then the
rows of each receipt in order, each row comma-joined from quoted cells and
the rows newline-joined. -/
def csvSpec (receipts : List Receipt) : String :=
  specJoin "\n" ((specHeader :: receipts.flatMap specRowsOf).map
    fun row => specJoin "," (row.map specEscape))

theorem needsQuote_iff (l : List Char) :
    needsQuote l = true ↔ (',' ∈ l ∨ '"' ∈ l ∨ '\n' ∈ l) := by
  simp [needsQuote, List.contains, List.elem_iff]
  tauto

theorem doubleQuotes_eq_flatMap (l : List Char) :
    doubleQuotes l = l.flatMap fun c => if c = '"' then ['"', '"'] else [c] := by
  induction l with
  | nil => rfl
  | cons c rest ih =>
      by_cases hc : c = '"' <;> simp [doubleQuotes, hc, ih]

theorem escapeChars_eq_spec (s : String) :
    escapeChars s.data = (specEscape s).data := by
  by_cases h : needsQuote s.data = true
  · rw [escapeChars, if_pos h, specEscape,
        if_pos ((needsQuote_iff s.data).mp h), doubleQuotes_eq_flatMap]
  · rw [escapeChars, if_neg h, specEscape,
        if_neg (fun hp => h ((needsQuote_iff s.data).mpr hp))]

theorem specJoin_data (sep : Char) (xs : List String) :
    (specJoin ⟨[sep]⟩ xs).data = joinChar sep (xs.map String.data) := by
  induction xs with
  | nil => rfl
  | cons x xs ih =>
      cases xs with
      | nil => rfl
      | cons y ys => simp [specJoin, joinChar, ih]

theorem receiptRows_eq_spec (r : Receipt) : receiptRows r = specRowsOf r := by
  obtain ⟨id, sn, va, t, cat, tax, note, img, items, ca, ua⟩ := r
  cases items <;> rfl

/-- C6: `toCsv` produces exactly the export the spec describes — one header
row in the fixed column order, then one row per line item with the receipt
fields repeated (a receipt without line items contributing exactly one row
with blank item fields), every cell containing a comma, quote or newline
being quoted with internal quotes doubled. -/
theorem toCsv_matches_spec (receipts : List Receipt) :
    toCsv receipts = csvSpec receipts := by
  apply String.ext
  have hcell : ∀ row : List String,
      renderRow row = (specJoin "," (row.map specEscape)).data := by
    intro row
    have h1 : ("," : String) = ⟨[',']⟩ := rfl
    rw [h1, specJoin_data, List.map_map]
    show joinChar ',' (row.map fun s => escapeChars s.data) = _
    congr 1
    exact List.map_congr_left fun s _ => escapeChars_eq_spec s
  have h2 : ("\n" : String) = ⟨['\n']⟩ := rfl
  show joinChar '\n' ((csvHeader :: receipts.flatMap receiptRows).map renderRow)
      = (csvSpec receipts).data
  rw [show receiptRows = specRowsOf from funext receiptRows_eq_spec]
  simp only [csvSpec, h2, specJoin_data, List.map_map]
  congr 1
  exact List.map_congr_left fun row _ => hcell row

/-! ### Behaviour of `parseCsvLine` (claims C8 and C10) -/

theorem parseAux_nil (cur : List Char) (q : Bool) (acc : List (List Char)) :
    parseCsvLineAux [] cur q acc = acc ++ [cur] := rfl

theorem parseAux_qq (rest cur : List Char) (q : Bool) (acc : List (List Char)) :
    parseCsvLineAux ('"' :: '"' :: rest) cur q acc =
      parseCsvLineAux rest (cur ++ ['"']) q acc := by
  simp [parseCsvLineAux]

theorem parseAux_q_cons (c : Char) (hc : c ≠ '"') (rest cur : List Char)
    (q : Bool) (acc : List (List Char)) :
    parseCsvLineAux ('"' :: c :: rest) cur q acc =
      parseCsvLineAux (c :: rest) cur (!q) acc := by
  simp [parseCsvLineAux, hc]

theorem parseAux_q_nil (cur : List Char) (q : Bool) (acc : List (List Char)) :
    parseCsvLineAux ['"'] cur q acc = acc ++ [cur] := by
  simp [parseCsvLineAux, parseAux_nil]

theorem parseAux_comma_out (rest cur : List Char) (acc : List (List Char)) :
    parseCsvLineAux (',' :: rest) cur false acc =
      parseCsvLineAux rest [] false (acc ++ [cur]) := by
  rw [parseCsvLineAux.eq_def]
  simp

theorem parseAux_comma_in (rest cur : List Char) (acc : List (List Char)) :
    parseCsvLineAux (',' :: rest) cur true acc =
      parseCsvLineAux rest (cur ++ [',']) true acc := by
  rw [parseCsvLineAux.eq_def]
  simp

theorem parseAux_plain (c : Char) (hq : c ≠ '"') (hcm : c ≠ ',')
    (rest cur : List Char) (q : Bool) (acc : List (List Char)) :
    parseCsvLineAux (c :: rest) cur q acc =
      parseCsvLineAux rest (cur ++ [c]) q acc := by
  rw [parseCsvLineAux.eq_def]
  simp [hq, hcm]

/-- Characters free of quotes and commas pass straight into the current
cell, in any quoting state. -/
theorem parseAux_unquoted (s : List Char) (h : ∀ c ∈ s, c ≠ '"' ∧ c ≠ ',') :
    ∀ (rest cur : List Char) (q : Bool) (acc : List (List Char)),
    parseCsvLineAux (s ++ rest) cur q acc = parseCsvLineAux rest (cur ++ s) q acc := by
  induction s with
  | nil => intro rest cur q acc; simp
  | cons c t ih =>
      intro rest cur q acc
      obtain ⟨h1, h2⟩ := h c (List.mem_cons_self ..)
      rw [List.cons_append, parseAux_plain c h1 h2,
          ih (fun x hx => h x (List.mem_cons_of_mem _ hx))]
      simp

/-- Inside quotes, a doubled body followed by the closing quote is decoded
back to the body, provided the closing quote is not immediately followed by
another quote. -/
theorem parseAux_quoted_body (s : List Char) :
    ∀ (rest : List Char), rest.head? ≠ some '"' →
    ∀ (cur : List Char) (acc : List (List Char)),
    parseCsvLineAux (doubleQuotes s ++ '"' :: rest) cur true acc =
      parseCsvLineAux rest (cur ++ s) false acc := by
  induction s with
  | nil =>
      intro rest hrest cur acc
      cases rest with
      | nil => simp [doubleQuotes, parseAux_q_nil, parseAux_nil]
      | cons r rs =>
          have hr : r ≠ '"' := fun hh => hrest (by simp [hh])
          simp [doubleQuotes, parseAux_q_cons r hr]
  | cons c t ih =>
      intro rest hrest cur acc
      by_cases hc : c = '"'
      · subst hc
        rw [show doubleQuotes ('"' :: t) = '"' :: '"' :: doubleQuotes t from by
              simp [doubleQuotes],
            List.cons_append, List.cons_append, parseAux_qq, ih rest hrest]
        simp
      · by_cases hcm : c = ','
        · subst hcm
          rw [show doubleQuotes (',' :: t) = ',' :: doubleQuotes t from by
                simp [doubleQuotes],
              List.cons_append, parseAux_comma_in, ih rest hrest]
          simp
        · rw [show doubleQuotes (c :: t) = c :: doubleQuotes t from by
                simp [doubleQuotes, hc],
              List.cons_append, parseAux_plain c hc hcm, ih rest hrest]
          simp

/-- One escaped cell followed by anything that does not start with a quote
is consumed back into that cell, provided the cell does not itself begin
with a quote. -/
theorem parseAux_cell (a : List Char) (ha : a.head? ≠ some '"') :
    ∀ (rest : List Char), rest.head? ≠ some '"' →
    ∀ (acc : List (List Char)),
    parseCsvLineAux (escapeChars a ++ rest) [] false acc =
      parseCsvLineAux rest a false acc := by
  intro rest hrest acc
  by_cases hq : needsQuote a = true
  · have hane : a ≠ [] := by
      intro h0
      rw [h0] at hq
      exact absurd hq (by decide)
    obtain ⟨a0, at'⟩ : ∃ x xs, a = x :: xs := by
      cases a with
      | nil => exact absurd rfl hane
      | cons x xs => exact ⟨x, xs, rfl⟩
    obtain ⟨at', rfl⟩ := at'
    have ha0 : a0 ≠ '"' := fun hh => ha (by simp [hh])
    have hdq : doubleQuotes (a0 :: at') = a0 :: doubleQuotes at' := by
      simp [doubleQuotes, ha0]
    have h2 := parseAux_quoted_body (a0 :: at') rest hrest [] acc
    rw [escapeChars, if_pos hq]
    simp only [hdq, List.cons_append, List.append_assoc, List.singleton_append,
      List.nil_append] at h2 ⊢
    rw [parseAux_q_cons a0 ha0]
    exact h2
  · have hn : ¬(',' ∈ a ∨ '"' ∈ a ∨ '\n' ∈ a) :=
      fun hp => hq ((needsQuote_iff a).mpr hp)
    have hok : ∀ c ∈ a, c ≠ '"' ∧ c ≠ ',' := by
      intro c hc
      constructor
      · intro hh; exact hn (Or.inr (Or.inl (hh ▸ hc)))
      · intro hh; exact hn (Or.inl (hh ▸ hc))
    rw [escapeChars, if_neg hq, parseAux_unquoted a hok]
    simp

/-- Joining escaped cells with commas and re-parsing yields the cells back,
for cells that do not begin with a quote. -/
theorem parseAux_join (cells : List (List Char))
    (h : ∀ c ∈ cells, c.head? ≠ some '"') :
    cells ≠ [] → ∀ acc : List (List Char),
    parseCsvLineAux (joinChar ',' (cells.map escapeChars)) [] false acc =
      acc ++ cells := by
  induction cells with
  | nil => intro hne; exact absurd rfl hne
  | cons a cs ih =>
      intro _ acc
      have ha := h a (List.mem_cons_self ..)
      cases cs with
      | nil =>
          show parseCsvLineAux (escapeChars a) [] false acc = acc ++ [a]
          have := parseAux_cell a ha [] (by simp) acc
          simpa [parseAux_nil] using this
      | cons b cs' =>
          show parseCsvLineAux
              (escapeChars a ++ ',' :: joinChar ',' ((b :: cs').map escapeChars))
              [] false acc = acc ++ (a :: b :: cs')
          rw [parseAux_cell a ha _ (by simp) acc, parseAux_comma_out,
              ih (fun c hc => h c (List.mem_cons_of_mem _ hc))
                (by simp) (acc ++ [a])]
          simp

/-- C10 counterexample: the cell consisting of a single double quote does
not survive the escape/parse round trip.  `escapeCell` turns it into four
quotes; `parseCsvLine` reads the first two as an escaped pair (the pair
check precedes the opening-quote check), so the parsed cell is two quote
characters instead of one. -/
theorem parse_escape_quote_cell_mismatch :
    parseCsvLine (specJoin "," ((["\""] : List String).map escapeCell)) =
      ["\"\""] ∧ (["\"\""] : List String) ≠ ["\""] :=
  ⟨by decide, by decide⟩

/-- C10 amended: for every nonempty list of cell strings, none containing a
newline and none beginning with a double quote, parsing the line formed by
joining the `escapeCell` image of each cell with commas returns exactly the
original cells. -/
theorem parse_escape_roundtrip (cells : List String) (hne : cells ≠ [])
    (h : ∀ s ∈ cells, '\n' ∉ s.data ∧ s.data.head? ≠ some '"') :
    parseCsvLine (specJoin "," (cells.map escapeCell)) = cells := by
  have hdata : (specJoin "," (cells.map escapeCell)).data
      = joinChar ',' ((cells.map String.data).map escapeChars) := by
    rw [show ("," : String) = ⟨[',']⟩ from rfl, specJoin_data,
        List.map_map, List.map_map]
    rfl
  rw [parseCsvLine, hdata,
      parseAux_join (cells.map String.data)
        (fun c hc => by
          obtain ⟨s, hs, rfl⟩ := List.mem_map.mp hc
          exact (h s hs).2)
        (by simpa using hne) []]
  rw [List.nil_append, List.map_map]
  have h1 : List.map ((fun l => (⟨l⟩ : String)) ∘ String.data) cells
      = List.map id cells :=
    List.map_congr_left fun s _ => rfl
  rw [h1, List.map_id]

/-- Witness for the amended C10 at concrete cells exercising commas and
embedded quotes. -/
theorem parse_escape_roundtrip_witness :
    ((["a,b", "plain", "x\"y"] : List String) ≠ [] ∧
      ∀ s ∈ (["a,b", "plain", "x\"y"] : List String),
        '\n' ∉ s.data ∧ s.data.head? ≠ some '"') ∧
    parseCsvLine (specJoin ","
        ((["a,b", "plain", "x\"y"] : List String).map escapeCell)) =
      ["a,b", "plain", "x\"y"] :=
  ⟨⟨by decide, by decide⟩,
    parse_escape_roundtrip ["a,b", "plain", "x\"y"] (by decide) (by decide)⟩

/-! ### Import deduplication (claim C7) -/

/-- Modelled from the spec: keep, in order, the first row bearing each
distinct composite key. -/
def specDedup : List CsvRow → List CsvRow
  | [] => []
  | r :: rest => r :: specDedup (rest.filter (fun x => rowKey x != rowKey r))
termination_by l => l.length
decreasing_by
  exact Nat.lt_succ_of_le (List.length_filter_le _ _)

theorem dedup_foldl (rows : List CsvRow) :
    ∀ acc : List CsvRow,
    rows.foldl (fun acc r =>
        if acc.any (fun x => rowKey x == rowKey r) then acc else acc ++ [r]) acc
      = acc ++ specDedup (rows.filter
          (fun r => !acc.any (fun x => rowKey x == rowKey r))) := by
  induction rows with
  | nil => intro acc; simp [specDedup]
  | cons r rest ih =>
      intro acc
      by_cases hk : acc.any (fun x => rowKey x == rowKey r) = true
      · simp only [List.foldl_cons, if_pos hk, List.filter_cons, hk,
          Bool.not_true, Bool.false_eq_true, if_false]
        exact ih acc
      · have hk' : acc.any (fun x => rowKey x == rowKey r) = false :=
          eq_false_of_ne_true hk
        simp only [List.foldl_cons, List.filter_cons, hk',
          Bool.false_eq_true, if_false, Bool.not_false, if_true]
        rw [ih (acc ++ [r])]
        have hfilters :
            rest.filter (fun x => !(acc ++ [r]).any (fun y => rowKey y == rowKey x))
              = (rest.filter (fun x => !acc.any (fun y => rowKey y == rowKey x))).filter
                  (fun x => rowKey x != rowKey r) := by
          rw [List.filter_filter]
          apply List.filter_congr
          intro a _
          by_cases ha : rowKey r = rowKey a
          · simp [List.any_append, ha]
          · have h1 : (rowKey r == rowKey a) = false :=
              beq_eq_false_iff_ne.mpr ha
            have h2 : (rowKey a == rowKey r) = false :=
              beq_eq_false_iff_ne.mpr (Ne.symm ha)
            simp [List.any_append, bne, h1, h2]
        rw [hfilters]
        simp [specDedup]

theorem dedupByKey_eq_specDedup (rows : List CsvRow) :
    dedupByKey rows = specDedup rows := by
  have h := dedup_foldl rows []
  simpa [dedupByKey] using h

theorem specDedup_subset (rows : List CsvRow) :
    ∀ x ∈ specDedup rows, x ∈ rows := by
  induction rows using specDedup.induct with
  | case1 => simp [specDedup]
  | case2 r rest ih =>
      intro x hx
      simp only [specDedup, List.mem_cons] at hx
      rcases hx with hx | hx
      · simp [hx]
      · exact List.mem_cons_of_mem _ (List.mem_of_mem_filter (ih x hx))

theorem specDedup_pairwise (rows : List CsvRow) :
    (specDedup rows).Pairwise (fun a b => rowKey a ≠ rowKey b) := by
  induction rows using specDedup.induct with
  | case1 => simp [specDedup]
  | case2 r rest ih =>
      simp only [specDedup, List.pairwise_cons]
      refine ⟨?_, ih⟩
      intro b hb
      have hbf := specDedup_subset _ b hb
      have := (List.mem_filter.mp hbf).2
      exact fun hrb => (bne_iff_ne.mp this) (hrb.symm)

theorem buildImported_mem (uuid nowAt : Nat → String) :
    ∀ (start : Nat) (rows : List CsvRow) (r : Receipt),
      r ∈ buildImported uuid nowAt start rows →
      ∃ i row, row ∈ rows ∧ r = mkImportedReceipt (uuid i) (nowAt i) row := by
  intro start rows
  induction rows generalizing start with
  | nil => intro r h; simp [buildImported] at h
  | cons a as ih =>
      intro r h
      simp only [buildImported, List.mem_cons] at h
      rcases h with h | h
      · exact ⟨start, a, by simp, h⟩
      · obtain ⟨i, row, hrow, heq⟩ := ih (start + 1) r h
        exact ⟨i, row, by simp [hrow], heq⟩

/-- C7: the importer groups the parsed data rows by the composite key
(date, store, total, note) and returns exactly one receipt per distinct
key, built from the first row bearing that key (the returned keys are
pairwise distinct); every returned receipt carries a freshly drawn id, the
current timestamp as both creation and update time, and an empty line-item
list; and the caller prepends the import to the existing receipts by plain
concatenation, without merging. -/
theorem import_dedup_contract (uuid nowAt : Nat → String) (csv : String)
    (st : AppState) (s : Session) (text : String) (iv : Nat)
    (hs : st.session = some s) :
    importCsvToReceipts uuid nowAt csv
        = buildImported uuid nowAt 0 (specDedup (importRows csv)) ∧
    (specDedup (importRows csv)).Pairwise (fun a b => rowKey a ≠ rowKey b) ∧
    (∀ r ∈ importCsvToReceipts uuid nowAt csv,
        r.lineItems = [] ∧
        ∃ i, r.id = uuid i ∧ r.createdAt = nowAt i ∧ r.updatedAt = nowAt i) ∧
    (handleImportCsv st true uuid nowAt text iv).1.session
        = some ⟨s.key, ⟨importCsvToReceipts uuid nowAt text ++ s.vault.receipts,
            s.vault.categories⟩⟩ := by
  refine ⟨?_, specDedup_pairwise _, ?_, ?_⟩
  · rw [importCsvToReceipts, dedupByKey_eq_specDedup]
  · intro r hr
    obtain ⟨i, row, _, rfl⟩ := buildImported_mem uuid nowAt 0 _ r hr
    exact ⟨rfl, i, rfl, rfl, rfl⟩
  · simp [handleImportCsv, hs, runProg, persistVaultProg]

/-- Witness for C7 at a concrete input containing a duplicate row. -/
theorem import_dedup_contract_witness :
    importCsvToReceipts (fun i => "u" ++ toString i) (fun _ => "t")
        "2024-05-01,shop,7\n2024-05-01,shop,7"
        = buildImported (fun i => "u" ++ toString i) (fun _ => "t") 0
            (specDedup (importRows "2024-05-01,shop,7\n2024-05-01,shop,7")) ∧
    (specDedup (importRows "2024-05-01,shop,7\n2024-05-01,shop,7")).Pairwise
        (fun a b => rowKey a ≠ rowKey b) ∧
    (∀ r ∈ importCsvToReceipts (fun i => "u" ++ toString i) (fun _ => "t")
        "2024-05-01,shop,7\n2024-05-01,shop,7",
        r.lineItems = [] ∧
        ∃ i, r.id = (fun i => "u" ++ toString i) i ∧
          r.createdAt = (fun _ : Nat => "t") i ∧ r.updatedAt = (fun _ : Nat => "t") i) ∧
    (handleImportCsv ⟨none, some 0, some ⟨deriveKey "p" 0, ⟨[], []⟩⟩⟩ true
        (fun i => "u" ++ toString i) (fun _ => "t") "x,y" 4).1.session
        = some ⟨(deriveKey "p" 0),
            ⟨importCsvToReceipts (fun i => "u" ++ toString i) (fun _ => "t") "x,y"
              ++ ([] : List Receipt), ([] : List Category)⟩⟩ :=
  import_dedup_contract (fun i => "u" ++ toString i) (fun _ => "t")
    "2024-05-01,shop,7\n2024-05-01,shop,7"
    ⟨none, some 0, some ⟨deriveKey "p" 0, ⟨[], []⟩⟩⟩
    ⟨deriveKey "p" 0, ⟨[], []⟩⟩ "x,y" 4 rfl

/-! ### Import error tolerance (claim C8) and totals (claim C9) -/

theorem splitOnChar_no_sep (sep : Char) (l : List Char) (h : sep ∉ l) :
    splitOnChar sep l = [l] := by
  induction l with
  | nil => rfl
  | cons c rest ih =>
      have hc : c ≠ sep := fun he => h (he ▸ List.mem_cons_self ..)
      rw [splitOnChar, ih (fun hm => h (List.mem_cons_of_mem _ hm))]
      simp [hc]

theorem escapeChars_id (l : List Char)
    (h : ∀ c ∈ l, c ≠ '"' ∧ c ≠ ',' ∧ c ≠ '\n') : escapeChars l = l := by
  rw [escapeChars, if_neg]
  intro hq
  rcases (needsQuote_iff l).mp hq with hm | hm | hm
  · exact (h _ hm).2.1 rfl
  · exact (h _ hm).1 rfl
  · exact (h _ hm).2.2 rfl

theorem head_ne_quote (l : List Char) (h : ∀ c ∈ l, c ≠ '"') :
    l.head? ≠ some '"' := by
  cases l with
  | nil => simp
  | cons c rest =>
      simp only [List.head?_cons, ne_eq, Option.some.injEq]
      exact h c (List.mem_cons_self ..)

theorem trimChars_subset (l : List Char) : ∀ x ∈ trimChars l, x ∈ l := by
  intro x hx
  rw [trimChars, List.mem_reverse] at hx
  have h1 := (List.dropWhile_sublist _).mem hx
  rw [List.mem_reverse] at h1
  exact (List.dropWhile_sublist _).mem h1

theorem digitsVal_nonneg (ds : List Char) : 0 ≤ digitsVal ds :=
  Int.natCast_nonneg _

theorem jsNumberOr0_nonneg (s : String)
    (h : ∀ c ∈ s.data, c.isDigit = true) : 0 ≤ jsNumberOr0 s := by
  rw [jsNumberOr0, jsNumber]
  cases ht : trimChars s.data with
  | nil => simp [jsOrElse, jsNumberCore]
  | cons c ds =>
      have hsub : ∀ x ∈ c :: ds, x.isDigit = true := by
        intro x hx
        exact h x (trimChars_subset s.data x (ht ▸ hx))
      have hc := hsub c (List.mem_cons_self ..)
      have hminus : c ≠ '-' := by
        intro he
        rw [he] at hc
        exact absurd hc (by decide)
      have hplus : c ≠ '+' := by
        intro he
        rw [he] at hc
        exact absurd hc (by decide)
      have hall : (c :: ds).all Char.isDigit = true := List.all_eq_true.mpr hsub
      simp only [jsNumberCore]
      rw [if_neg hminus, if_neg hplus, if_pos hall]
      have hdv := digitsVal_nonneg (c :: ds)
      by_cases hz : digitsVal (c :: ds) = 0 <;> simp [jsOrElse, hz, hdv]

theorem jsNumberOr0_of_none (s : String) (h : jsNumber s = none) :
    jsNumberOr0 s = 0 := by
  rw [jsNumberOr0, h]
  rfl

/-- C8 counterexample: a wholly malformed non-blank input does not yield an
empty import — every non-blank line becomes a fallback receipt, so
`importCsvToReceipts("hello world")` has one element, not zero. -/
theorem import_malformed_not_empty :
    (importCsvToReceipts (fun _ => "u") (fun _ => "t") "hello world").length = 1 ∧
    (importCsvToReceipts (fun _ => "u") (fun _ => "t") "hello world").map
        Receipt.storeName = ["インポート"] ∧
    (1 : Nat) ≠ 0 :=
  ⟨by decide, by decide, by decide⟩

/-- C8 amended: `importCsvToReceipts` is a total function that never
raises; an input whose lines are all blank yields an empty import; and a
data row whose total field is non-numeric coerces that total to 0 instead
of aborting (the row still imports, as the single receipt shows). -/
theorem importCsv_error_tolerance :
    (∀ (uuid nowAt : Nat → String) (csv : String),
      splitLines csv = [] → importCsvToReceipts uuid nowAt csv = []) ∧
    (∀ (uuid nowAt : Nat → String) (d s g : String),
      (∀ c ∈ d.data, c ≠ '"' ∧ c ≠ ',' ∧ c ≠ '\n') →
      (∀ c ∈ s.data, c ≠ '"' ∧ c ≠ ',' ∧ c ≠ '\n') →
      (∀ c ∈ g.data, c ≠ '"' ∧ c ≠ ',' ∧ c ≠ '\n') →
      trimChars (d ++ "," ++ s ++ ",,,,," ++ g).data
        = (d ++ "," ++ s ++ ",,,,," ++ g).data →
      headerHasStore (d ++ "," ++ s ++ ",,,,," ++ g) = false →
      jsNumber g = none →
      (importCsvToReceipts uuid nowAt (d ++ "," ++ s ++ ",,,,," ++ g)).map
          Receipt.total = [0]) := by
  constructor
  · intro uuid nowAt csv h
    simp [importCsvToReceipts, importRows, importDataLines, h, dedupByKey,
      buildImported]
  · intro uuid nowAt d s g hd hs hg htrim hhs hnum
    have hnl : '\n' ∉ (d ++ "," ++ s ++ ",,,,," ++ g).data := by
      intro hm
      simp only [String.data_append] at hm
      rcases List.mem_append.mp hm with hm | hm
      · rcases List.mem_append.mp hm with hm | hm
        · rcases List.mem_append.mp hm with hm | hm
          · rcases List.mem_append.mp hm with hm | hm
            · exact (hd _ hm).2.2 rfl
            · simp at hm
          · exact (hs _ hm).2.2 rfl
        · simp at hm
      · exact (hg _ hm).2.2 rfl
    have hcomma : ',' ∈ (d ++ "," ++ s ++ ",,,,," ++ g).data := by
      simp [String.data_append]
    have hne : (d ++ "," ++ s ++ ",,,,," ++ g).data ≠ [] :=
      List.ne_nil_of_mem hcomma
    have hsplit : splitLines (d ++ "," ++ s ++ ",,,,," ++ g)
        = [d ++ "," ++ s ++ ",,,,," ++ g] := by
      rw [splitLines, splitOnChar_no_sep _ _ hnl]
      simp only [List.map_cons, List.map_nil, htrim, List.filter_cons,
        List.filter_nil]
      rw [if_pos (by simp [List.isEmpty_iff, hne])]
      rfl
    have hjoin : (d ++ "," ++ s ++ ",,,,," ++ g).data
        = joinChar ','
            ([d.data, s.data, [], [], [], [], g.data].map escapeChars) := by
      rw [List.map_cons, List.map_cons, List.map_cons, List.map_cons,
        List.map_cons, List.map_cons, List.map_cons, List.map_nil,
        escapeChars_id d.data hd, escapeChars_id s.data hs,
        escapeChars_id g.data hg,
        escapeChars_id [] (by simp)]
      simp [joinChar, String.data_append]
    have hcells : parseCsvLine (d ++ "," ++ s ++ ",,,,," ++ g)
        = [d, s, "", "", "", "", g] := by
      rw [parseCsvLine, hjoin,
        parseAux_join [d.data, s.data, [], [], [], [], g.data] ?hh (by simp) []]
      · rfl
      case hh =>
        intro c hc
        simp only [List.mem_cons, List.not_mem_nil, or_false] at hc
        rcases hc with rfl | rfl | rfl | rfl | rfl | rfl | rfl
        · exact head_ne_quote _ fun c hm => (hd c hm).1
        · exact head_ne_quote _ fun c hm => (hs c hm).1
        · simp
        · simp
        · simp
        · simp
        · exact head_ne_quote _ fun c hm => (hg c hm).1
    have hrow : rowOfLine (d ++ "," ++ s ++ ",,,,," ++ g) = ⟨d, s, 0, none⟩ := by
      rw [rowOfLine, hcells]
      simp [jsNumberOr0_of_none g hnum]
    rw [importCsvToReceipts, importRows, importDataLines, hsplit]
    simp only [hhs, Bool.false_eq_true, if_false]
    simp [hrow, dedupByKey, buildImported, mkImportedReceipt]

/-- Witness for the amended C8: a blank-lines-only file imports to nothing,
and a row with the non-numeric total `"abc"` imports with total 0. -/
theorem importCsv_error_tolerance_witness :
    importCsvToReceipts (fun _ => "u") (fun _ => "t") "\n  \n" = [] ∧
    (importCsvToReceipts (fun _ => "u") (fun _ => "t")
        ("2024-05-01" ++ "," ++ "shop" ++ ",,,,," ++ "abc")).map
      Receipt.total = [0] :=
  ⟨importCsv_error_tolerance.1 (fun _ => "u") (fun _ => "t") "\n  \n" (by decide),
   importCsv_error_tolerance.2 (fun _ => "u") (fun _ => "t")
     "2024-05-01" "shop" "abc" (by decide) (by decide) (by decide)
     (by decide) (by decide) (by decide)⟩

/-- C9 counterexample: a drafted total of `"-5"` is saved as the negative
total −5; nothing in `handleSaveReceipt` enforces non-negativity. -/
theorem save_receipt_negative_total :
    ((handleSaveReceipt ⟨none, some 0, some ⟨deriveKey "p" 0, ⟨[], []⟩⟩⟩ true
        ⟨"Shop", "2024-05-01", "-5", "", "food", none, []⟩ "u1"
        "2024-06-01T00:00:00.000Z" false 0).1.session.map
      fun s => s.vault.receipts.map Receipt.total) = some [(-5 : Int)] ∧
    ¬(0 : Int) ≤ (-5 : Int) :=
  ⟨by decide, by decide⟩

/-- The total field read by the importer: column 6, falling back to
column 2, falling back to blank. -/
def totalFieldOf (line : String) : String :=
  (match (parseCsvLine line).get? 6 with
   | some s => some s
   | none => (parseCsvLine line).get? 2).getD ""

/-- C9 amended: a receipt entering the vault carries the JavaScript numeric
coercion (`Number(x) || 0`) of its source field as total; this is a
non-negative integer whenever the source fields are digit strings — it can
be negative when a signed value such as `"-5"` is typed or imported. -/
theorem receipt_totals_nonneg (draft : ReceiptDraft) (uuid now : String)
    (saveImage : Bool) (uuidAt nowAt : Nat → String) (csv : String)
    (hdraft : ∀ c ∈ draft.total.data, c.isDigit = true)
    (hcsv : ∀ line ∈ importDataLines csv,
      ∀ c ∈ (totalFieldOf line).data, c.isDigit = true) :
    0 ≤ (mkReceiptFromDraft draft uuid now saveImage).total ∧
    ∀ r ∈ importCsvToReceipts uuidAt nowAt csv, 0 ≤ r.total := by
  constructor
  · exact jsNumberOr0_nonneg _ hdraft
  · intro r hr
    obtain ⟨i, row, hrow, rfl⟩ := buildImported_mem uuidAt nowAt 0 _ r hr
    show 0 ≤ row.total
    have hrow2 : row ∈ importRows csv := by
      rw [dedupByKey_eq_specDedup] at hrow
      exact specDedup_subset _ row hrow
    rw [importRows] at hrow2
    obtain ⟨line, hline, rfl⟩ := List.mem_map.mp hrow2
    show 0 ≤ (rowOfLine line).total
    have hfield := hcsv line hline
    rw [rowOfLine]
    cases h6 : (parseCsvLine line).get? 6 with
    | some t =>
        rw [totalFieldOf, h6] at hfield
        simp only [h6]
        exact jsNumberOr0_nonneg t hfield
    | none =>
        cases h2 : (parseCsvLine line).get? 2 with
        | some t =>
            rw [totalFieldOf, h6, h2] at hfield
            simp only [h6, h2]
            exact jsNumberOr0_nonneg t hfield
        | none => simp [h6, h2]

/-- Witness for the amended C9 at a digit-only draft and CSV. -/
theorem receipt_totals_nonneg_witness :
    0 ≤ (mkReceiptFromDraft ⟨"Shop", "2024-05-01", "980", "", "food", none, []⟩
        "u1" "t1" false).total ∧
    ∀ r ∈ importCsvToReceipts (fun _ => "u") (fun _ => "t") "1,2,3",
      0 ≤ r.total :=
  receipt_totals_nonneg ⟨"Shop", "2024-05-01", "980", "", "food", none, []⟩
    "u1" "t1" false (fun _ => "u") (fun _ => "t") "1,2,3"
    (by decide) (by decide)

end SattoReceipt
